import Mathlib

/-!
Verification of the turbocache-js caching engine against its specification.

The development shallowly embeds the TypeScript source:
* `src/adapters/memory-adapter.ts`   (`MemoryAdapter`, the bounded memory store)
* `src/adapters/multi-tier-adapter.ts` (`MultiTierAdapter`, the tiered store)
* `src/core/cache-manager.ts`        (`CacheManager`, the orchestrator)
* `src/utils/key-generator.ts`       (`KeyGenerator`, the key mini-language)
* the `TurboCacheEvict` decorator    (invalidation verb)

JavaScript `Map` objects are modelled as insertion-ordered association
lists over `String` keys; `Date.now()` is an explicit `now : Nat`
parameter (milliseconds); `undefined`/`null` TTL arguments are `Option`;
awaited adapter calls that may reject are modelled with `Except`.
-/

namespace TurboCache

/-- An entry of the memory adapter's map.  In the source
`expiresAt = ttl ? Date.now() + ttl * 1000 : 0`, so `expiresAt = 0`
encodes "no expiry" exactly as in the code. -/
structure CacheEntry (α : Type) where
  value : α
  expiresAt : Nat
  deriving Repr, DecidableEq

/-! ### JavaScript `Map` semantics over association lists

A JS `Map` preserves insertion order; `set` on an existing key updates
the value in place (keeping the key's position), otherwise appends;
`delete` removes; `keys().next().value` is the first key in order. -/

/-- `map.get k` -/
def jsMapGet (k : String) : List (String × β) → Option β
  | [] => none
  | (k2, v) :: rest => if k2 = k then some v else jsMapGet k rest

/-- `map.set k v` -/
def jsMapSet (k : String) (v : β) : List (String × β) → List (String × β)
  | [] => [(k, v)]
  | (k2, v2) :: rest =>
    if k2 = k then (k, v) :: rest else (k2, v2) :: jsMapSet k v rest

/-- `map.delete k` -/
def jsMapDelete (k : String) (m : List (String × β)) : List (String × β) :=
  m.filter (fun kv => kv.1 ≠ k)

/-- `map.has k` -/
def jsMapContains (k : String) (m : List (String × β)) : Bool :=
  (jsMapGet k m).isSome

/-- `map.keys().next().value` : the first key in insertion order. -/
def jsMapFirstKey (m : List (String × β)) : Option String :=
  m.head?.map Prod.fst

/-! ### Glob patterns

`patternToRegex` turns a pattern into an anchored regex where `*`
becomes `.*` (any run of characters) and every other character matches
itself literally.  `globMatch p k` decides whether the whole key `k`
matches pattern `p`: a `*` consumes an arbitrary prefix of the
remaining key. -/

def globMatch : List Char → List Char → Bool
  | [], ks => ks.isEmpty
  | '*' :: ps, ks => (List.range (ks.length + 1)).any (fun i => globMatch ps (ks.drop i))
  | p :: ps, ks =>
    match ks with
    | [] => false
    | c :: ks2 => p == c && globMatch ps ks2

/-- `stats()` snapshot: `{hits, misses, keys, memory, uptime}`.  Fields
are integers because the Keyv-backed remote adapter reports `-1` for
`keys` and `memory` when they are unavailable. -/
structure CacheStats where
  hits : Int
  misses : Int
  keys : Int
  memory : Int
  uptime : Int
  deriving Repr, DecidableEq

/-! ### MemoryAdapter (src/adapters/memory-adapter.ts) -/

/-- State of a `MemoryAdapter`: the insertion-ordered map, the
normalized `options.max` (the constructor applies `options.max || 1000`),
the hit/miss counters and the construction time. -/
structure MemoryState (α : Type) where
  cache : List (String × CacheEntry α)
  maxItems : Nat
  hits : Nat
  misses : Nat
  startTime : Nat
  deriving Repr, DecidableEq

/-- A fresh `MemoryAdapter` with `options.max = max` (`new MemoryAdapter({max})`). -/
def emptyMem (α : Type) (max : Nat) : MemoryState α :=
  { cache := [], maxItems := max, hits := 0, misses := 0, startTime := 0 }

namespace MemoryAdapter

/-- The expiry test `entry.expiresAt && entry.expiresAt < Date.now()`:
`expiresAt` is truthy (nonzero) and strictly in the past. -/
def isExpired (e : CacheEntry α) (now : Nat) : Bool :=
  e.expiresAt ≠ 0 && decide (e.expiresAt < now)

/-- `MemoryAdapter.get`: miss on absence, lazily delete and miss on
expiry, otherwise hit.  Returns the value (or `null` = `none`) and the
updated state. -/
def memGet (now : Nat) (key : String) (s : MemoryState α) :
    Option α × MemoryState α :=
  match jsMapGet key s.cache with
  | none => (none, { s with misses := s.misses + 1 })
  | some entry =>
    if isExpired entry now then
      (none, { s with cache := jsMapDelete key s.cache, misses := s.misses + 1 })
    else
      (some entry.value, { s with hits := s.hits + 1 })

/-- `MemoryAdapter.set`: when at capacity and the key is new, evict the
first key of the map — guarded by the truthiness test `if (firstKey)`,
which skips the eviction when the first key is the empty string — then
insert with `expiresAt = ttl ? now + ttl * 1000 : 0`. -/
def memSet (now : Nat) (key : String) (value : α) (ttl : Option Nat)
    (s : MemoryState α) : MemoryState α :=
  let cache :=
    if s.maxItems ≠ 0 ∧ s.cache.length ≥ s.maxItems ∧ ¬ jsMapContains key s.cache then
      match jsMapFirstKey s.cache with
      | some firstKey => if firstKey ≠ "" then jsMapDelete firstKey s.cache else s.cache
      | none => s.cache
    else s.cache
  let expiresAt :=
    match ttl with
    | some t => if t ≠ 0 then now + t * 1000 else 0
    | none => 0
  { s with cache := jsMapSet key { value := value, expiresAt := expiresAt } cache }

/-- `MemoryAdapter.has`: false on absence, lazily delete and answer
false on expiry, else true.  It never touches the hit/miss counters. -/
def memHas (now : Nat) (key : String) (s : MemoryState α) :
    Bool × MemoryState α :=
  match jsMapGet key s.cache with
  | none => (false, s)
  | some entry =>
    if isExpired entry now then
      (false, { s with cache := jsMapDelete key s.cache })
    else
      (true, s)

/-- `MemoryAdapter.delete` for a single key. -/
def memDelete (key : String) (s : MemoryState α) : MemoryState α :=
  { s with cache := jsMapDelete key s.cache }

/-- `MemoryAdapter.clear`: no pattern clears everything; with a pattern
every matching key is deleted. -/
def memClear (pattern : Option String) (s : MemoryState α) : MemoryState α :=
  match pattern with
  | none => { s with cache := [] }
  | some p =>
    { s with cache := s.cache.filter (fun kv => !globMatch p.toList kv.1.toList) }

/-- `MemoryAdapter.keys`: all keys, filtered by the pattern when given. -/
def memKeys (pattern : Option String) (s : MemoryState α) : List String :=
  let allKeys := s.cache.map Prod.fst
  match pattern with
  | none => allKeys
  | some p => allKeys.filter (fun k => globMatch p.toList k.toList)

/-- `MemoryAdapter.mget`: sequential `get` per key, collecting the
non-null results in key order. -/
def memMget (now : Nat) (keys : List String) (s : MemoryState α) :
    List (String × α) × MemoryState α :=
  match keys with
  | [] => ([], s)
  | k :: ks =>
    let r := memGet now k s
    let rest := memMget now ks r.2
    match r.1 with
    | some v => ((k, v) :: rest.1, rest.2)
    | none => rest

/-- The periodic `cleanup`: remove every expired entry. -/
def cleanupList (now : Nat) (cache : List (String × CacheEntry α)) :
    List (String × CacheEntry α) :=
  cache.filter (fun kv => !isExpired kv.2 now)

/-- `estimateMemoryUsage`: per entry, two bytes per key character, two
per character of the serialized value, plus 16 bytes of overhead.
`serialize` abstracts `JSON.stringify`. -/
def estimateMemoryUsage (serialize : α → String)
    (cache : List (String × CacheEntry α)) : Nat :=
  (cache.map (fun kv => 2 * kv.1.length + 2 * (serialize kv.2.value).length + 16)).sum

/-- `MemoryAdapter.stats`: cleanup first, then report the counters and
the post-cleanup key count and memory estimate. -/
def memStats (serialize : α → String) (now : Nat) (s : MemoryState α) :
    CacheStats × MemoryState α :=
  let s2 := { s with cache := cleanupList now s.cache }
  ({ hits := s.hits, misses := s.misses, keys := s2.cache.length,
     memory := estimateMemoryUsage serialize s2.cache,
     uptime := (now : Int) - s.startTime }, s2)

end MemoryAdapter

/-! ### MultiTierAdapter (src/adapters/multi-tier-adapter.ts)

Both tiers are modelled as `MemoryState`s; the claims settled over this
model only involve operations whose tier routing is independent of the
backing adapter. -/

/-- State of a `MultiTierAdapter`: an L1 (hot) and an L2 (cold) tier
with their per-tier default TTLs (`options.l1TTL || 300`,
`options.l2TTL || 3600`). -/
structure MultiTierState (α : Type) where
  l1 : MemoryState α
  l2 : MemoryState α
  l1TTL : Nat
  l2TTL : Nat
  deriving Repr, DecidableEq

namespace MultiTierAdapter

open MemoryAdapter

/-- `MultiTierAdapter.clear`: `Promise.all([l1.clear(pattern), l2.clear(pattern)])`
— the pattern is applied to both tiers. -/
def mtClear (pattern : Option String) (s : MultiTierState α) : MultiTierState α :=
  { s with l1 := memClear pattern s.l1, l2 := memClear pattern s.l2 }

/-- `MultiTierAdapter.delete`: applied to both tiers. -/
def mtDelete (key : String) (s : MultiTierState α) : MultiTierState α :=
  { s with l1 := memDelete key s.l1, l2 := memDelete key s.l2 }

/-- `MultiTierAdapter.keys`: `return this.l2.keys(pattern)` — the cold
tier is the source of truth for the keyspace; L1 is not consulted. -/
def mtKeys (pattern : Option String) (s : MultiTierState α) : List String :=
  memKeys pattern s.l2

/-- `MultiTierAdapter.stats` as a pure combiner of the two tiers'
snapshots: hits are summed, misses take the maximum, the key count
comes from L2, and memory adds the L2 figure only when it is positive
(`l2Stats.memory > 0 ? l2Stats.memory : 0`); uptime is the minimum. -/
def mtStats (l1Stats l2Stats : CacheStats) : CacheStats :=
  { hits := l1Stats.hits + l2Stats.hits,
    misses := max l1Stats.misses l2Stats.misses,
    keys := l2Stats.keys,
    memory := l1Stats.memory + (if l2Stats.memory > 0 then l2Stats.memory else 0),
    uptime := min l1Stats.uptime l2Stats.uptime }

end MultiTierAdapter

/-! ### KeyGenerator (src/utils/key-generator.ts)

Argument and result values are JavaScript-like values.  `null` and
`undefined` are identified as `vnull`: both stringify to the empty
string and both short-circuit property walks, which is all the source
distinguishes them by. -/

/-- A JavaScript value as seen by the key generator. -/
inductive JVal where
  | vnull
  | vstr (s : String)
  | vnum (n : Int)
  | vbool (b : Bool)
  | vobj (fields : List (String × JVal))
  deriving Repr

namespace KeyGenerator

/-- `JSON.stringify` on the modelled values. -/
def jsonOf : JVal → String
  | .vnull => "null"
  | .vstr s => "\"" ++ s ++ "\""
  | .vnum n => toString n
  | .vbool b => toString b
  | .vobj fields => "\x7b" ++ jsonFields fields ++ "\x7d"
where
  jsonFields : List (String × JVal) → String
    | [] => ""
    | [(k, v)] => "\"" ++ k ++ "\":" ++ jsonOf v
    | (k, v) :: rest => "\"" ++ k ++ "\":" ++ jsonOf v ++ "," ++ jsonFields rest

/-- `KeyGenerator.stringify`: null/undefined become the empty string,
strings pass through, numbers and booleans print, objects serialize as
JSON. -/
def stringify : JVal → String
  | .vnull => ""
  | .vstr s => s
  | .vnum n => toString n
  | .vbool b => toString b
  | .vobj fields => jsonOf (.vobj fields)

/-- The test `/^\d+$/.test(expr)`: nonempty and all digits. -/
def isDigits (s : String) : Bool :=
  !s.toList.isEmpty && s.toList.all Char.isDigit

/-- `parseInt` on an all-digit string. -/
def parseIndex (s : String) : Nat :=
  s.toList.foldl (fun n c => n * 10 + (c.toNat - 48)) 0

/-- `expr.split('.')` over the character list: dot-separated pieces,
keeping empty pieces exactly as JavaScript does. -/
def splitDot : List Char → List (List Char)
  | [] => [[]]
  | '.' :: rest => [] :: splitDot rest
  | c :: rest =>
    match splitDot rest with
    | [] => [[c]]
    | p :: ps => (c :: p) :: ps

/-- JavaScript property access `value[prop]`: a field of an object, or
`undefined` for a missing field or a non-object receiver. -/
def getProp (v : JVal) (prop : String) : JVal :=
  match v with
  | .vobj fields =>
    match fields.lookup prop with
    | some x => x
    | none => .vnull
  | _ => .vnull

/-- The property walk of `evaluatePropertyAccess`: before each step the
value is tested for null/undefined and the walk short-circuits to the
empty string; at the end the value is stringified. -/
def walkProps (v : JVal) : List String → String
  | [] => stringify v
  | p :: ps =>
    match v with
    | .vnull => ""
    | _ => walkProps (getProp v p) ps

/-- `KeyGenerator.evaluatePropertyAccess`: split on dots; a numeric
first part selects `args[index]` and is dropped, otherwise the walk
starts from `args[0]` with the whole part list. -/
def evaluatePropertyAccess (expr : String) (args : List JVal) : String :=
  let parts := (splitDot expr.toList).map (fun cs => (⟨cs⟩ : String))
  match parts with
  | p :: rest =>
    if isDigits p then
      walkProps (args.getD (parseIndex p) .vnull) rest
    else
      walkProps (args.getD 0 .vnull) parts
  | [] => walkProps (args.getD 0 .vnull) parts

/-- `KeyGenerator.evaluateExpression`: an all-digit selector indexes
`args`; a dotted selector walks properties; any other selector — the
"simple parameter name" heuristic — stringifies the first argument. -/
def evaluateExpression (expr : String) (args : List JVal) : String :=
  if isDigits expr then
    stringify (args.getD (parseIndex expr) .vnull)
  else if expr.toList.contains '.' then
    evaluatePropertyAccess expr args
  else
    stringify (args.getD 0 .vnull)

/-- Scan for a `#\x7b...\x7d` token body: the characters up to the first
closing brace.  Mirrors the regex `([^}]+)`: the match requires at least
one body character and a closing brace; otherwise the scan fails. -/
def takeTok (cs : List Char) : Option (String × List Char) :=
  let tok := cs.takeWhile (fun c => c ≠ '}')
  match cs.dropWhile (fun c => c ≠ '}') with
  | '}' :: rest => if tok.isEmpty then none else some (⟨tok⟩, rest)
  | _ => none

/-- One pass of `pattern.replace(/#\x7b([^}]+)\x7d/g, ...)`: each token is
replaced by `evaluateExpression`; where the regex does not match, the
scan advances one character, leaving the text literal.  `fuel` bounds
the recursion; every step consumes at least one character, so
`cs.length` fuel always suffices. -/
def parseGo (args : List JVal) : Nat → List Char → List Char
  | 0, cs => cs
  | _ + 1, [] => []
  | fuel + 1, '#' :: '{' :: rest =>
    match takeTok rest with
    | some (tok, rest2) =>
      (evaluateExpression tok args).toList ++ parseGo args fuel rest2
    | none => '#' :: parseGo args fuel ('{' :: rest)
  | fuel + 1, c :: rest => c :: parseGo args fuel rest

/-- `KeyGenerator.parseExpression`. -/
def parseExpression (pattern : String) (args : List JVal) : String :=
  ⟨parseGo args (pattern.toList.length + 1) pattern.toList⟩

/-- `KeyGenerator.generate` when a key pattern is configured (the
no-pattern branch hashes the arguments with MD5 and is outside the
claims considered here: line 20 of the source delegates a present
pattern directly to `parseExpression`). -/
def generate (pattern : String) (args : List JVal) : String :=
  parseExpression pattern args

end KeyGenerator

/-! ### CacheManager (src/core/cache-manager.ts)

The orchestrator's state-passing operations are modelled over a
`MemoryState` backing adapter.  Its configuration is taken after the
constructor's normalization (`config.namespace || ''`,
`config.defaultTTL || 3600`). -/

/-- Normalized `CacheManager` configuration. -/
structure CMConfig where
  nameSpace : String
  defaultTTL : Nat
  deriving Repr, DecidableEq

namespace CacheManager

open MemoryAdapter

/-- `buildKey`: `this.namespace ? namespace + ":" + key : key`. -/
def buildKey (cfg : CMConfig) (key : String) : String :=
  if cfg.nameSpace ≠ "" then cfg.nameSpace ++ ":" ++ key else key

/-- `CacheManager.get`: namespacing wrapper around the adapter's get. -/
def cmGet (cfg : CMConfig) (now : Nat) (key : String) (s : MemoryState α) :
    Option α × MemoryState α :=
  memGet now (buildKey cfg key) s

/-- `CacheManager.set`: `effectiveTTL = ttl ?? this.defaultTTL` — the
nullish coalescing keeps an explicit `0` — then delegate. -/
def cmSet (cfg : CMConfig) (now : Nat) (key : String) (value : α)
    (ttl : Option Nat) (s : MemoryState α) : MemoryState α :=
  memSet now (buildKey cfg key) value (some (ttl.getD cfg.defaultTTL)) s

/-- `CacheManager.delete` for a single key. -/
def cmDelete (cfg : CMConfig) (key : String) (s : MemoryState α) : MemoryState α :=
  memDelete (buildKey cfg key) s

/-- `CacheManager.clear`: `fullPattern = pattern ? buildKey(pattern) : undefined`
— a missing (or empty, hence falsy) pattern clears everything. -/
def cmClear (cfg : CMConfig) (pattern : Option String) (s : MemoryState α) :
    MemoryState α :=
  let fullPattern :=
    match pattern with
    | some p => if p ≠ "" then some (buildKey cfg p) else none
    | none => none
  memClear fullPattern s

/-- The `fallback` option of `wrap`: a literal value, or a function.
The function's parameter models the single argument JavaScript would
pass; `none` is "called with no argument" (the parameter is
`undefined`). -/
inductive WrapFallback (ε α : Type) where
  | value (v : α)
  | func (f : Option ε → α)

/-- `CacheManager.wrap`, with the outcomes of the awaited interactions
passed in explicitly: `cached` is the result of the initial cache
lookup, `factory` the settled compute promise, and `setOutcome` the
settled store promise.  The source's `try` block spans the factory call
AND the subsequent `await this.set`, so a store failure reaches the
same `catch` as a compute failure; the catch returns the literal
fallback, or invokes a function fallback with NO argument
(`options.fallback()`), or rethrows. -/
def wrap (cached : Option α) (factory : Except ε α)
    (condition : Option (α → Bool)) (fallback : Option (WrapFallback ε α))
    (setOutcome : Except ε Unit) : Except ε α :=
  match cached with
  | some c => .ok c
  | none =>
    let tryBlock : Except ε α :=
      match factory with
      | .error e => .error e
      | .ok value =>
        let shouldCache :=
          match condition with
          | none => true
          | some cond => cond value
        if shouldCache then
          match setOutcome with
          | .error e => .error e
          | .ok _ => .ok value
        else .ok value
    match tryBlock with
    | .ok v => .ok v
    | .error e =>
      match fallback with
      | some (.value v) => .ok v
      | some (.func f) => .ok (f none)
      | none => .error e

end CacheManager

/-- A probe fallback function that records whether it was called with
an argument: `0` when called with none (`undefined` parameter), `1`
when a failure value is passed. -/
def fbProbe : Option Nat → Nat
  | none => 0
  | some _ => 1

/-! ### The TurboCacheEvict decorator

`evictCache` drives the `CacheManager` model above; `run` is the
wrapped method body produced by the decorator, taking the settled
outcome of the original method as a parameter. -/

/-- `TurboCacheEvictOptions`.  `condition` receives the method result
(`null` — here `none` — on the before-invocation path) and the call
arguments. -/
structure EvictOptions (ρ : Type) where
  key : Option String := none
  allEntries : Bool := false
  beforeInvocation : Bool := false
  nameSpace : Option String := none
  condition : Option (Option ρ → List JVal → Bool) := none

namespace TurboCacheEvict

open CacheManager

/-- The decorator's `evictCache` helper: a failing condition skips
eviction; `allEntries` clears the configured namespace pattern;
otherwise a configured key pattern is derived from the arguments and
deleted; with neither configured nothing happens. -/
def evictCache (cfg : CMConfig) (result : Option ρ) (args : List JVal)
    (opts : EvictOptions ρ) (s : MemoryState α) : MemoryState α :=
  let condOk :=
    match opts.condition with
    | some c => c result args
    | none => true
  if !condOk then s
  else if opts.allEntries then cmClear cfg opts.nameSpace s
  else
    match opts.key with
    | some pat => cmDelete cfg (KeyGenerator.generate pat args) s
    | none => s

/-- The method body installed by `TurboCacheEvict`: evict first when
`beforeInvocation`; then, on success of the wrapped call, evict with
the result when not `beforeInvocation`; on failure rethrow without any
further eviction. -/
def run (cfg : CMConfig) (opts : EvictOptions ρ) (args : List JVal)
    (wrapped : Except ε ρ) (s : MemoryState α) :
    Except ε ρ × MemoryState α :=
  let s1 := if opts.beforeInvocation then evictCache cfg none args opts s else s
  match wrapped with
  | .ok r =>
    if ¬ opts.beforeInvocation then (.ok r, evictCache cfg (some r) args opts s1)
    else (.ok r, s1)
  | .error e => (.error e, s1)

end TurboCacheEvict

/-! ## Supporting lemmas -/

theorem jsMapGet_set_self (k : String) (v : β) (m : List (String × β)) :
    jsMapGet k (jsMapSet k v m) = some v := by
  induction m with
  | nil => simp [jsMapSet, jsMapGet]
  | cons hd tl ih =>
    obtain ⟨k2, v2⟩ := hd
    by_cases h : k2 = k
    · simp [jsMapSet, h, jsMapGet]
    · simp [jsMapSet, h, jsMapGet, ih]

theorem jsMapGet_filter_not (q : String → Bool) (k : String) (h : q k = true)
    (m : List (String × β)) :
    jsMapGet k (m.filter (fun kv => !q kv.1)) = none := by
  induction m with
  | nil => rfl
  | cons hd tl ih =>
    obtain ⟨k2, v2⟩ := hd
    by_cases hk : k2 = k
    · subst hk
      simpa [List.filter_cons, h] using ih
    · by_cases hq : q k2 = true
      · simpa [List.filter_cons, hq] using ih
      · simpa [List.filter_cons, hq, jsMapGet, hk] using ih

namespace MemoryAdapter

theorem memGet_hits_eq (now : Nat) (key : String) (s : MemoryState α) :
    (memGet now key s).2.hits =
      s.hits + (if (memGet now key s).1.isSome then 1 else 0) := by
  unfold memGet
  cases jsMapGet key s.cache with
  | none => simp
  | some entry =>
    by_cases h : isExpired entry now = true
    · simp [h]
    · simp [h]

theorem memGet_misses_eq (now : Nat) (key : String) (s : MemoryState α) :
    (memGet now key s).2.misses =
      s.misses + (if (memGet now key s).1.isSome then 0 else 1) := by
  unfold memGet
  cases jsMapGet key s.cache with
  | none => simp
  | some entry =>
    by_cases h : isExpired entry now = true
    · simp [h]
    · simp [h]

theorem memGet_counter_sum (now : Nat) (key : String) (s : MemoryState α) :
    (memGet now key s).2.hits + (memGet now key s).2.misses =
      s.hits + s.misses + 1 := by
  rw [memGet_hits_eq, memGet_misses_eq]
  by_cases h : (memGet now key s).1.isSome <;> simp [h] <;> omega

theorem memMget_counter_sum (now : Nat) (keys : List String) (s : MemoryState α) :
    (memMget now keys s).2.hits + (memMget now keys s).2.misses =
      s.hits + s.misses + keys.length := by
  induction keys generalizing s with
  | nil => simp [memMget]
  | cons k ks ih =>
    have hstep := memGet_counter_sum now k s
    unfold memMget
    cases hv : (memGet now k s).1 with
    | some v =>
      simp only [hv]
      have := ih (memGet now k s).2
      simp only [List.length_cons]
      omega
    | none =>
      simp only [hv]
      have := ih (memGet now k s).2
      simp only [List.length_cons]
      omega

end MemoryAdapter

/-! ## Claims -/

open MemoryAdapter MultiTierAdapter CacheManager

/-- Claim C1.  The spec requires that a failure raised by the cache
layer after a successful compute never masks the computed value.  The
code violates it: `await this.set` sits inside `wrap`'s `try` block, so
at the failing input — lookup misses, the factory resolves `42`, the
store rejects with error `5` — `wrap` rethrows the cache error when no
fallback is configured, and returns the fallback `0` instead of `42`
when a literal fallback is configured. -/
theorem wrap_set_failure_masks_compute :
    CacheManager.wrap (ε := Nat) (α := Nat) none (.ok 42) none none (.error 5) =
      .error 5 ∧
    CacheManager.wrap (ε := Nat) (α := Nat) none (.ok 42) none
      (some (.value 0)) (.error 5) = .ok 0 ∧
    (Except.error 5 : Except Nat Nat) ≠ .ok 42 ∧
    (Except.ok 0 : Except Nat Nat) ≠ .ok 42 := by
  refine ⟨rfl, rfl, by simp, by simp⟩

/-- Claim C2.  The capacity bound is claimed to be an invariant, but
the eviction guard `if (firstKey)` is a truthiness test: when the
oldest key is the empty string it is falsy, the eviction is skipped,
and the store grows to three entries although `max = 2`. -/
theorem memSet_empty_key_breaks_capacity :
    (memSet 0 "c" 3 none (memSet 0 "b" 2 none
        (memSet 0 "" 1 none (emptyMem Nat 2)))).cache.length = 3 ∧
    (emptyMem Nat 2).maxItems = 2 ∧ (2 : Nat) < 3 := by
  refine ⟨by decide, by decide, by decide⟩

/-- Claim C3, counterexample.  The claim says `clear(pattern)` does not
delete any entry from the hot tier; in the code `clear` is
`Promise.all` over BOTH tiers, so with the hot tier holding `user:1`,
`clear("user:*")` removes it from the hot tier. -/
theorem mtClear_pattern_deletes_from_hot :
    (mtClear (some "user:*")
        ⟨memSet 0 "user:1" (1 : Nat) none (emptyMem Nat 1000),
          emptyMem Nat 1000, 300, 3600⟩).l1.cache.length = 0 ∧
    (memSet 0 "user:1" (1 : Nat) none (emptyMem Nat 1000)).cache.length = 1 := by
  refine ⟨by decide, by decide⟩

/-- Claim C3, amended: `listKeys` consults only the cold tier, but
`clear(pattern)` is applied to both tiers — every key the pattern
matches is removed from the hot tier and from the cold tier alike. -/
theorem mtClear_both_tiers_mtKeys_cold (p : String) (s : MultiTierState α)
    (k : String) (h : globMatch p.toList k.toList = true) :
    jsMapGet k (mtClear (some p) s).l1.cache = none ∧
    jsMapGet k (mtClear (some p) s).l2.cache = none ∧
    ∀ q : Option String, mtKeys q s = memKeys q s.l2 := by
  refine ⟨?_, ?_, fun q => rfl⟩ <;>
    exact jsMapGet_filter_not (fun str => globMatch p.toList str.toList) k h _

/-- Witness for the amended C3 at `p = "user:*"`, `k = "user:1"`, both
tiers populated with the key. -/
theorem mtClear_both_tiers_mtKeys_cold_witness :
    jsMapGet "user:1" (mtClear (some "user:*")
        ⟨memSet 0 "user:1" (1 : Nat) none (emptyMem Nat 1000),
          memSet 0 "user:1" (1 : Nat) none (emptyMem Nat 1000),
          300, 3600⟩).l1.cache = none ∧
    jsMapGet "user:1" (mtClear (some "user:*")
        ⟨memSet 0 "user:1" (1 : Nat) none (emptyMem Nat 1000),
          memSet 0 "user:1" (1 : Nat) none (emptyMem Nat 1000),
          300, 3600⟩).l2.cache = none :=
  ⟨(mtClear_both_tiers_mtKeys_cold "user:*" _ "user:1" (by decide)).1,
    (mtClear_both_tiers_mtKeys_cold "user:*" _ "user:1" (by decide)).2.1⟩

/-- Claim C4, counterexample.  The claim says a bare-identifier
selector such as `username` resolves to the empty string; the code's
"simple parameter name" heuristic substitutes the stringified first
argument instead: with args `["42"]` the derived key is `u:42`, not
`u:`. -/
theorem generate_bare_identifier_not_empty :
    KeyGenerator.generate "u:#\x7busername\x7d" [JVal.vstr "42"] = "u:42" ∧
    ("u:42" : String) ≠ "u:" := by
  refine ⟨by decide, by decide⟩

/-- Claim C4, amended: a `#\x7bselector\x7d` token whose selector is
neither an all-digit index nor a dotted path substitutes the
stringification of the FIRST argument (which is the empty string only
when that argument is null/undefined or absent); no error is raised. -/
theorem evaluateExpression_bare_identifier (expr : String) (args : List JVal)
    (h1 : KeyGenerator.isDigits expr = false)
    (h2 : expr.toList.contains '.' = false) :
    KeyGenerator.evaluateExpression expr args =
      KeyGenerator.stringify (args.getD 0 .vnull) := by
  have h1p : ¬ (KeyGenerator.isDigits expr = true) := by simp [h1]
  have h2p : ¬ (expr.toList.contains '.' = true) := by rw [h2]; simp
  simp only [KeyGenerator.evaluateExpression, if_neg h1p, if_neg h2p]

/-- Witness for the amended C4 at selector `username`, args `["42"]`. -/
theorem evaluateExpression_bare_identifier_witness :
    KeyGenerator.isDigits "username" = false ∧
    "username".toList.contains '.' = false ∧
    KeyGenerator.evaluateExpression "username" [JVal.vstr "42"] =
      KeyGenerator.stringify ([JVal.vstr "42"].getD 0 .vnull) :=
  ⟨by decide, by decide,
    evaluateExpression_bare_identifier "username" [JVal.vstr "42"]
      (by decide) (by decide)⟩

/-- Claim C5, counterexample.  `set(k, v, ttl=1s)` at time 0 stores
`expiresAt = 1000`; the claim says the entry is absent AT the expiry
instant, but the expiry test is strict (`expiresAt < Date.now()`), so
at `now = 1000` both `get` and `has` still report the entry. -/
theorem memGet_at_expiry_instant_still_hit :
    jsMapGet "k" (memSet 0 "k" (42 : Nat) (some 1) (emptyMem Nat 1000)).cache =
      some { value := 42, expiresAt := 1000 } ∧
    (memGet 1000 "k" (memSet 0 "k" (42 : Nat) (some 1) (emptyMem Nat 1000))).1 =
      some 42 ∧
    (memHas 1000 "k" (memSet 0 "k" (42 : Nat) (some 1) (emptyMem Nat 1000))).1 =
      true := by
  refine ⟨by decide, by decide, by decide⟩

/-- Claim C5, amended: after `set(k, v, ttl)` with a nonzero ttl, at any
instant STRICTLY after the expiry instant `t1 + ttl * 1000`, `get(k)`
is absent and `has(k)` is false (at the exact instant the entry is
still returned, per the counterexample). -/
theorem memGet_memHas_after_expiry (s : MemoryState α) (k : String) (v : α)
    (ttl t1 t2 : Nat) (h0 : ttl ≠ 0) (h : t1 + ttl * 1000 < t2) :
    (memGet t2 k (memSet t1 k v (some ttl) s)).1 = none ∧
    (memHas t2 k (memSet t1 k v (some ttl) s)).1 = false := by
  have hget : jsMapGet k (memSet t1 k v (some ttl) s).cache =
      some { value := v, expiresAt := t1 + ttl * 1000 } := by
    simp [memSet, h0, jsMapGet_set_self]
  have hexp : isExpired { value := v, expiresAt := t1 + ttl * 1000 } t2 = true := by
    simp [isExpired]
    omega
  constructor
  · simp [memGet, hget, hexp]
  · simp [memHas, hget, hexp]

/-- Witness for the amended C5: ttl one second, written at 0, read at
2000 ms. -/
theorem memGet_memHas_after_expiry_witness :
    (memGet 2000 "k" (memSet 0 "k" (42 : Nat) (some 1) (emptyMem Nat 1000))).1 =
      none ∧
    (memHas 2000 "k" (memSet 0 "k" (42 : Nat) (some 1) (emptyMem Nat 1000))).1 =
      false :=
  memGet_memHas_after_expiry (emptyMem Nat 1000) "k" 42 1 0 2000
    (by decide) (by decide)

/-- Claim C6, counterexample.  The claim says the combined memory is
the SUM of both tiers' memory; the code computes
`l1.memory + (l2.memory > 0 ? l2.memory : 0)`, and the Keyv-backed
cold adapter reports `memory = -1` when it is unavailable: with hot
memory 10 and cold memory -1 the code reports 10, while the sum is 9. -/
theorem mtStats_memory_not_sum :
    (mtStats ⟨0, 0, 0, 10, 0⟩ ⟨0, 0, 5, -1, 0⟩).memory = 10 ∧
    (⟨0, 0, 0, 10, 0⟩ : CacheStats).memory + (⟨0, 0, 5, -1, 0⟩ : CacheStats).memory = 9 ∧
    (10 : Int) ≠ 9 := by
  refine ⟨by decide, by decide, by decide⟩

/-- Claim C6, amended: hits are the sum of the tiers' hits, misses the
maximum of the tiers' misses, the key count comes from the cold tier,
and memory is the sum of both tiers' memory whenever the cold tier's
figure is positive — when the cold tier reports a non-positive memory
(the remote adapter's `-1` for "unknown") only the hot tier's figure is
reported. -/
theorem mtStats_fields (a b : CacheStats) :
    (mtStats a b).hits = a.hits + b.hits ∧
    (mtStats a b).misses = max a.misses b.misses ∧
    (mtStats a b).keys = b.keys ∧
    (0 < b.memory → (mtStats a b).memory = a.memory + b.memory) ∧
    (b.memory ≤ 0 → (mtStats a b).memory = a.memory) := by
  refine ⟨rfl, rfl, rfl, ?_, ?_⟩ <;> intro h <;> simp [mtStats] <;> omega

/-- Witness for the amended C6 at two concrete snapshots, one with a
positive cold memory and one with the remote adapter's `-1`. -/
theorem mtStats_fields_witness :
    (mtStats ⟨1, 2, 3, 4, 5⟩ ⟨6, 7, 8, 9, 10⟩).hits = 7 ∧
    (mtStats ⟨1, 2, 3, 4, 5⟩ ⟨6, 7, 8, 9, 10⟩).memory = 13 ∧
    (mtStats ⟨1, 2, 3, 4, 5⟩ ⟨6, 7, 8, -1, 10⟩).memory = 4 :=
  ⟨((mtStats_fields ⟨1, 2, 3, 4, 5⟩ ⟨6, 7, 8, 9, 10⟩).1).trans (by decide),
    ((mtStats_fields ⟨1, 2, 3, 4, 5⟩ ⟨6, 7, 8, 9, 10⟩).2.2.2.1 (by decide)).trans
      (by decide),
    ((mtStats_fields ⟨1, 2, 3, 4, 5⟩ ⟨6, 7, 8, -1, 10⟩).2.2.2.2 (by decide)).trans
      (by decide)⟩

/-- Claim C7, counterexample.  The claim says every resolved `has` call
increments exactly one of the hits/misses counters; in the code `has`
touches neither: on a fresh store (counters 0/0) a resolved `has`
answers false and leaves both counters at 0. -/
theorem memHas_does_not_count :
    (emptyMem Nat 1000).hits = 0 ∧ (emptyMem Nat 1000).misses = 0 ∧
    (memHas 0 "a" (emptyMem Nat 1000)).1 = false ∧
    (memHas 0 "a" (emptyMem Nat 1000)).2.hits = 0 ∧
    (memHas 0 "a" (emptyMem Nat 1000)).2.misses = 0 := by
  refine ⟨rfl, rfl, by decide, by decide, by decide⟩

/-- Claim C7, amended: each resolved `get` increments exactly one
counter — hits when it returns a value (present and unexpired), misses
otherwise — and `multiGet` increments one counter per requested key;
`has`, however, modifies neither counter.  `stats()` reports exactly
the accumulated counters. -/
theorem mem_counters (now t : Nat) (k : String) (ks : List String)
    (serialize : α → String) (s : MemoryState α) :
    (memGet now k s).2.hits =
      s.hits + (if (memGet now k s).1.isSome then 1 else 0) ∧
    (memGet now k s).2.misses =
      s.misses + (if (memGet now k s).1.isSome then 0 else 1) ∧
    (memHas now k s).2.hits = s.hits ∧
    (memHas now k s).2.misses = s.misses ∧
    (memMget now ks s).2.hits + (memMget now ks s).2.misses =
      s.hits + s.misses + ks.length ∧
    (memStats serialize t s).1.hits = (s.hits : Int) ∧
    (memStats serialize t s).1.misses = (s.misses : Int) := by
  refine ⟨memGet_hits_eq now k s, memGet_misses_eq now k s, ?_, ?_,
    memMget_counter_sum now ks s, rfl, rfl⟩ <;>
  · unfold memHas
    cases jsMapGet k s.cache with
    | none => rfl
    | some entry =>
      by_cases h : isExpired entry now = true
      · simp [h]
      · simp [h]

/-- Claim C8: for a failing wrapped call, before-invocation eviction
has already run (the final cache state is the eviction applied to the
initial state; in particular a configured, unconditioned key is
actually deleted), while after-invocation (default) eviction does not
run at all (the final state is untouched); the failure is rethrown in
both timings. -/
theorem evict_timing (cfg : CMConfig) (opts : EvictOptions ρ) (args : List JVal)
    (e : ε) (s : MemoryState α) :
    TurboCacheEvict.run cfg { opts with beforeInvocation := true } args
        (Except.error e) s =
      (Except.error e,
        TurboCacheEvict.evictCache cfg none args
          { opts with beforeInvocation := true } s) ∧
    TurboCacheEvict.run cfg { opts with beforeInvocation := false } args
        (Except.error e) s =
      (Except.error e, s) ∧
    ∀ pat : String,
      TurboCacheEvict.run cfg
          ({ key := some pat, allEntries := false, beforeInvocation := true,
             nameSpace := none, condition := none } : EvictOptions ρ) args
          (Except.error e) s =
        (Except.error e, cmDelete cfg (KeyGenerator.generate pat args) s) := by
  refine ⟨rfl, rfl, fun pat => rfl⟩

/-- Claim C9, counterexample.  The claim says a function-valued
`fallback` of `wrap` is invoked WITH the failure; the code calls
`options.fallback()` with no argument, so the probe fallback receives
nothing (yielding 0), not the failure 7 (which would yield 1). -/
theorem wrap_fallback_called_without_error :
    CacheManager.wrap (α := Nat) none (.error 7) none (some (.func fbProbe))
        (.ok ()) = .ok (fbProbe none) ∧
    fbProbe none = 0 ∧ fbProbe (some 7) = 1 ∧
    CacheManager.wrap (α := Nat) none (.error 7) none (some (.func fbProbe))
        (.ok ()) ≠ .ok (fbProbe (some 7)) := by
  refine ⟨rfl, rfl, rfl, by simp [CacheManager.wrap, fbProbe]⟩

/-- Claim C9, amended: when the compute fails and a function-valued
fallback is configured, `wrap` invokes the fallback with NO argument
(the failure is not passed) and returns its result. -/
theorem wrap_compute_failure_fallback_fn (e : ε) (cond : Option (α → Bool))
    (f : Option ε → α) (setOutcome : Except ε Unit) :
    CacheManager.wrap none (.error e) cond (some (.func f)) setOutcome =
      .ok (f none) := rfl

/-- Claim C10: an explicit ttl of 0 yields a never-expiring entry.
`CacheManager.set` keeps the explicit 0 (nullish coalescing, not
`||`), `MemoryAdapter.set` maps ttl 0 to `expiresAt = 0`, and `get`
then returns the value at every later instant. -/
theorem ttl_zero_never_expires (cfg : CMConfig) (s : MemoryState α)
    (k : String) (v : α) (t1 t2 : Nat) :
    (cmGet cfg t2 k (cmSet cfg t1 k v (some 0) s)).1 = some v ∧
    jsMapGet (buildKey cfg k) (cmSet cfg t1 k v (some 0) s).cache =
      some { value := v, expiresAt := 0 } ∧
    jsMapGet k (memSet t1 k v (some 0) s).cache =
      some { value := v, expiresAt := 0 } := by
  have hset : ∀ (key : String),
      jsMapGet key (memSet t1 key v (some 0) s).cache =
        some { value := v, expiresAt := 0 } := by
    intro key
    simp [memSet, jsMapGet_set_self]
  refine ⟨?_, hset (buildKey cfg k), hset k⟩
  simp [cmGet, cmSet, memGet, hset (buildKey cfg k), isExpired]

end TurboCache
